import Mathlib

/-!
Verification of the exif-viewer repository (React/Tauri UI in
`src/src/App.tsx`, backend commands `read_exif` and `find_aesthetic_images`)
against its natural-language specification.

The UI layer in `App.tsx` is embedded directly: each React callback becomes a
pure state-transition function on an explicit `AppState`, with the awaited
backend call's outcome passed in as an `Except String _` value.  The Rust
backend itself is not part of the sources, so the behaviour the spec ascribes
to it (`find_aesthetic_images` filtering, `read_exif` duplicate-tag handling)
is modelled from the spec's words; those definitions say so in their doc
comments.

JS strings are Lean `String`s; the string operations `App.tsx` uses
(`split`, `join`, `includes`) are embedded as structurally recursive
functions over `String.data` so that they evaluate inside the kernel.
-/

/-- `ExifField` from `App.tsx`: `{ tag: string, ifd: string, value: string }`. -/
structure ExifField where
  tag : String
  ifd : String
  value : String
deriving DecidableEq, Repr

/-- `AestheticMatch` from `App.tsx`: `{ path: string, score: number }`.
JS float scores are modelled as rationals. -/
structure AestheticMatch where
  path : String
  score : ℚ
deriving DecidableEq, Repr

/-- `IMAGE_FILTERS` constant of `App.tsx` (lines 37-48), verbatim. -/
def IMAGE_FILTERS : List String :=
  ["jpg", "jpeg", "png", "tif", "tiff", "webp", "heic", "heif", "avif", "bmp"]

/-- One entry of the `filters` option handed to the Tauri file-open dialog. -/
structure DialogFilter where
  name : String
  extensions : List String
deriving DecidableEq, Repr

/-- The `filters` array `handleOpenFile` passes to `open` (App.tsx lines 99-107). -/
def openFileDialogFilters : List DialogFilter :=
  [{ name := "Images", extensions := IMAGE_FILTERS }]

/-- JS `s.split(sep)` for the separators `App.tsx` uses, which are always the
single characters `"\\"` or `"/"`: split the character list on that
character.  (`"".split(sep)` is `[""]`, as in JS.) -/
def jsSplit (s : String) (sep : String) : List String :=
  match sep.data with
  | [c] => (s.data.splitOn c).map List.asString
  | _ => [s]

/-- JS `parts.join(sep)`: elements interleaved with the separator, `""` for
the empty list. -/
def jsJoin (sep : String) : List String → String
  | [] => ""
  | [x] => x
  | x :: y :: xs => x ++ sep ++ jsJoin sep (y :: xs)

/-- JS `path.includes("\\")`: the path contains a backslash character. -/
def jsHasBackslash (p : String) : Bool :=
  p.data.contains '\\'

/-- `formatPath` from `App.tsx` lines 50-65.  JS `if (!path)` is truthy on
`null` and on the empty string, so both map to "No file selected";
`split(separator).filter(Boolean)` drops exactly the empty segments. -/
def formatPath : Option String → String
  | none => "No file selected"
  | some path =>
    if path = "" then "No file selected"
    else
      let separator := if jsHasBackslash path then "\\" else "/"
      let parts := (jsSplit path separator).filter (fun x => x != "")
      if parts = [] then path
      else
        let fileName := parts.getLastD path
        let directory := jsJoin separator parts.dropLast
        if directory = "" then fileName
        else fileName ++ " — " ++ directory

/-- `getFileName` from `App.tsx` lines 67-74. -/
def getFileName (path : String) : String :=
  let separator := if jsHasBackslash path then "\\" else "/"
  let parts := (jsSplit path separator).filter (fun x => x != "")
  if parts = [] then path
  else parts.getLastD path

/-! Spec-side mirror of claim C10's description of `formatPath`/`getFileName`,
used to compare the code with the claim's words.  The claim describes: the
separator is backslash when the path contains one and forward slash
otherwise; segments are the non-empty separator-delimited pieces; the file
name is the last segment (or the path unchanged when every segment is
empty); `formatPath` returns the file name alone when there is no directory
prefix, else `"<fileName> — <directory>"`. -/

/-- Separator as claim C10 describes it. -/
def sepSpec (p : String) : String :=
  if jsHasBackslash p then "\\" else "/"

/-- Non-empty separator-delimited segments, as claim C10 describes them. -/
def segsSpec (p : String) : List String :=
  (jsSplit p (sepSpec p)).filter (fun x => x != "")

/-- File name as claim C10 describes it: last non-empty segment, or the path
unchanged when every segment is empty. -/
def getFileNameSpec (p : String) : String :=
  (segsSpec p).getLastD p

/-- Directory part as claim C10 describes it: the segments before the file
name, joined by the separator. -/
def dirSpec (p : String) : String :=
  jsJoin (sepSpec p) (segsSpec p).dropLast

/-- `formatPath` on a non-null path as claim C10 describes it. -/
def formatPathSpec (p : String) : String :=
  if dirSpec p = "" then getFileNameSpec p
  else getFileNameSpec p ++ " — " ++ dirSpec p

/-- C4: the image-file picker handed to the open dialog is constrained to
exactly the ten case-insensitive extensions of the spec's allow-list — jpg,
jpeg, png, tif, tiff, webp, heic, heif, avif, bmp — no more, no fewer. -/
theorem c4_picker_extension_allow_list :
    openFileDialogFilters =
      [{ name := "Images",
         extensions := ["jpg", "jpeg", "png", "tif", "tiff", "webp",
                        "heic", "heif", "avif", "bmp"] }] ∧
    IMAGE_FILTERS.length = 10 ∧ IMAGE_FILTERS.Nodup := by
  refine ⟨rfl, rfl, ?_⟩
  decide

/-- C10 counterexample: the claim says only `formatPath(null)` maps to
"No file selected" and that every non-null path goes through the
separator/segment computation; but the code treats the empty string (a
non-null path) as falsy and also returns "No file selected", while the
claim's description yields `""` for it. -/
theorem c10_counterexample_empty_path :
    formatPath (some "") = "No file selected" ∧
    formatPathSpec "" = "" ∧
    formatPath (some "") ≠ formatPathSpec "" := by
  refine ⟨rfl, ?_, ?_⟩ <;> decide

/-- C10 (amended): `formatPath` and `getFileName` are total; `formatPath none`
is "No file selected"; and for every non-null, NON-EMPTY path both functions
behave exactly as the claim describes (separator choice, last non-empty
segment or the path unchanged, file name alone when there is no directory
prefix, else "fileName — directory").  `getFileName` agrees with the claim's
description on all paths, the empty one included. -/
theorem c10_formatPath_getFileName_spec (p : String) (h : p ≠ "") :
    formatPath none = "No file selected" ∧
    formatPath (some p) = formatPathSpec p ∧
    ∀ q : String, getFileName q = getFileNameSpec q := by
  refine ⟨rfl, ?_, ?_⟩
  · show (if p = "" then "No file selected"
      else
        let separator := if jsHasBackslash p then "\\" else "/"
        let parts := (jsSplit p separator).filter (fun x => x != "")
        if parts = [] then p
        else
          let fileName := parts.getLastD p
          let directory := jsJoin separator parts.dropLast
          if directory = "" then fileName
          else fileName ++ " — " ++ directory) = formatPathSpec p
    rw [if_neg h]
    unfold formatPathSpec dirSpec getFileNameSpec segsSpec sepSpec
    cases hp : (jsSplit p (if jsHasBackslash p then "\\" else "/")).filter
        (fun x => x != "") with
    | nil => simp [hp, jsJoin]
    | cons a l => simp [hp]
  · intro q
    unfold getFileName getFileNameSpec segsSpec sepSpec
    cases hq : (jsSplit q (if jsHasBackslash q then "\\" else "/")).filter
        (fun x => x != "") with
    | nil => simp [hq]
    | cons a l => simp [hq]

/-- C10 witness: the amended theorem at the concrete paths "a/b/c.jpg" and
"d\e.png". -/
theorem c10_witness :
    formatPath (some "a/b/c.jpg") = formatPathSpec "a/b/c.jpg" ∧
    getFileName "d\\e.png" = getFileNameSpec "d\\e.png" :=
  ⟨(c10_formatPath_getFileName_spec "a/b/c.jpg" (by decide)).2.1,
   (c10_formatPath_getFileName_spec "a/b/c.jpg" (by decide)).2.2 "d\\e.png"⟩

/-! The React component state of `App` (App.tsx lines 77-87) and its event
handlers as pure state transitions.  An awaited `invoke` is represented by
its outcome, an `Except String _` value: Tauri commands reject with the
backend's error string, so the JS `err instanceof Error ? err.message :
String(err)` computation reduces to that string itself. -/

/-- A JS number as `Number.parseFloat` can produce it: NaN, an infinity, or a
finite value (modelled as a rational). -/
inductive JSNum where
  | nan : JSNum
  | posInf : JSNum
  | negInf : JSNum
  | finite : ℚ → JSNum
deriving DecidableEq, Repr

/-- JS `Number.isFinite`. -/
def jsIsFinite : JSNum → Bool
  | .finite _ => true
  | _ => false

/-- "The parsed value is negative": a negative finite value or `-Infinity`. -/
def jsIsNeg : JSNum → Bool
  | .finite q => decide (q < 0)
  | .negInf => true
  | _ => false

/-- "The parsed value is NaN". -/
def jsIsNaN : JSNum → Bool
  | .nan => true
  | _ => false

/-- The `useState` fields of `App` (App.tsx lines 77-87). -/
structure AppState where
  fields : List ExifField
  filePath : Option String
  loading : Bool
  error : Option String
  folderPath : Option String
  scanResults : List AestheticMatch
  scanLoading : Bool
  scanError : Option String
  scanAttempted : Bool
  minScoreInput : String
deriving DecidableEq, Repr

/-- The initial state of `App`: the `useState` initial values. -/
def initAppState : AppState :=
  { fields := []
    filePath := none
    loading := false
    error := none
    folderPath := none
    scanResults := []
    scanLoading := false
    scanError := none
    scanAttempted := false
    minScoreInput := "0.75" }

/-- `handleOpenFile` (App.tsx lines 96-132) after the user picked
`selectedPath` and the awaited `invoke("read_exif")` finished with
`outcome`: clear the error, record the path, set loading, then either store
the returned fields (flagging an empty list via `setError`) or, on
rejection, clear the fields and store the message (with the fallback text
when the message is empty, since `"" || fallback` is the fallback). -/
def handleOpenFile (s : AppState) (selectedPath : String)
    (outcome : Except String (List ExifField)) : AppState :=
  let s1 := { s with error := none }
  let s2 := { s1 with filePath := some selectedPath, loading := true }
  match outcome with
  | .ok result =>
    let s3 := { s2 with fields := result }
    let s4 :=
      if result.length = 0 then
        { s3 with error := some "No EXIF metadata was found in the selected file." }
      else s3
    { s4 with loading := false }
  | .error err =>
    { s2 with
      fields := []
      error := some (if err = "" then
        "Unable to read EXIF metadata for the selected file." else err)
      loading := false }

/-- The error `Alert` of the file panel (App.tsx lines 277-281) renders
exactly when `error && !loading`. -/
def errorAlertVisible (s : AppState) : Bool :=
  s.error.isSome && !s.loading

/-- The text the file panel's error `Alert` shows, when it is rendered. -/
def errorAlertText (s : AppState) : Option String :=
  if errorAlertVisible s then s.error else none

/-- The state reached by `scanFolder` just before `invoke` is awaited
(App.tsx lines 144-147): loading on, error cleared, attempt recorded,
results cleared. -/
def scanFolderPre (s : AppState) : AppState :=
  { s with
    scanLoading := true
    scanError := none
    scanAttempted := true
    scanResults := [] }

/-- Result of one `scanFolder` run: the final state, and whether
`invoke("find_aesthetic_images")` was reached. -/
structure ScanStep where
  state : AppState
  invoked : Bool
deriving DecidableEq, Repr

/-- `scanFolder` (App.tsx lines 134-164).  `parsed` stands for
`Number.parseFloat(minScoreInput)` (a JS builtin); when it is not finite the
run stops with a validation error and empty results before any backend
call.  Otherwise the pre-invoke state clears results and error, and the
awaited `invoke` outcome either stores the returned matches or clears the
results and stores the rejection message (fallback text when it is empty). -/
def scanFolder (s : AppState) (parsed : JSNum)
    (outcome : Except String (List AestheticMatch)) : ScanStep :=
  if !jsIsFinite parsed then
    { state :=
        { s with
          scanError := some "Enter a valid minimum score before scanning."
          scanResults := []
          scanAttempted := true }
      invoked := false }
  else
    let s1 := scanFolderPre s
    match outcome with
    | .ok results =>
      { state := { s1 with scanResults := results, scanLoading := false }
        invoked := true }
    | .error err =>
      { state :=
          { s1 with
            scanResults := []
            scanError := some (if err = "" then
              "Unable to scan the selected folder." else err)
            scanLoading := false }
        invoked := true }

/-- The scan panel's error `Alert` (App.tsx lines 332-334) renders exactly
when `scanError && !scanLoading`; it shows `scanError` itself. -/
def scanErrorAlertText (s : AppState) : Option String :=
  if s.scanError.isSome && !s.scanLoading then s.scanError else none

/-- The matches the current outcome of `invoke("find_aesthetic_images")`
delivered: the returned list on success, nothing on rejection. -/
def outcomeResults : Except String (List AestheticMatch) → List AestheticMatch
  | .ok results => results
  | .error _ => []

/-- C1 (code bug): when `read_exif` succeeds with an empty field list, the
claim requires the UI not to enter its error state nor render an error
alert; but `handleOpenFile` calls `setError` on an empty result, and the
resulting state renders the error-severity alert. -/
theorem c1_empty_success_enters_error_state :
    (handleOpenFile initAppState "photo.jpg" (.ok [])).error =
      some "No EXIF metadata was found in the selected file." ∧
    errorAlertVisible (handleOpenFile initAppState "photo.jpg" (.ok [])) = true :=
  ⟨rfl, rfl⟩

/-- C9: whenever `read_exif` rejects, `handleOpenFile` resets the field list
to empty and stores an error, so no stale fields from a previous successful
read remain in the state that shows the error. -/
theorem c9_reject_clears_fields (s : AppState) (p : String) (e : String) :
    (handleOpenFile s p (.error e)).fields = [] ∧
    (handleOpenFile s p (.error e)).error.isSome = true ∧
    errorAlertVisible (handleOpenFile s p (.error e)) = true := by
  refine ⟨rfl, ?_, ?_⟩ <;> rfl

/-- C5: a non-empty rejection message `e`, from `read_exif` or from
`find_aesthetic_images`, is stored verbatim in the error state and is
exactly the text the corresponding error alert renders. -/
theorem c5_error_string_surfaced_verbatim (s : AppState) (p : String) (q : ℚ)
    (e : String) (h : e ≠ "") :
    errorAlertText (handleOpenFile s p (.error e)) = some e ∧
    scanErrorAlertText (scanFolder s (JSNum.finite q) (.error e)).state = some e := by
  constructor
  · simp [handleOpenFile, errorAlertText, errorAlertVisible, if_neg h]
  · simp [scanFolder, scanFolderPre, scanErrorAlertText, jsIsFinite, if_neg h]

/-- C5 witness: the verbatim-surfacing theorem at the concrete message
"disk unplugged". -/
theorem c5_witness :
    errorAlertText (handleOpenFile initAppState "photo.jpg"
      (.error "disk unplugged")) = some "disk unplugged" ∧
    scanErrorAlertText (scanFolder initAppState (JSNum.finite 0)
      (.error "disk unplugged")).state = some "disk unplugged" :=
  c5_error_string_surfaced_verbatim initAppState "photo.jpg" 0
    "disk unplugged" (by decide)

/-- C2 counterexample: a minimum-score input parsing to the negative finite
value -1 is NOT rejected — `scanFolder` reaches the
`invoke("find_aesthetic_images")` call, contradicting the claim that the
backend is never invoked for a negative or NaN parsed value. -/
theorem c2_counterexample_negative_threshold :
    ¬ (∀ (parsed : JSNum) (outcome : Except String (List AestheticMatch)),
        (jsIsNeg parsed || jsIsNaN parsed) = true →
        (scanFolder initAppState parsed outcome).invoked = false) := by
  intro h
  have := h (JSNum.finite (-1)) (.ok []) (by decide)
  simp [scanFolder, jsIsFinite] at this

/-- C2 (amended): only a NON-FINITE parsed minimum score (NaN or an
infinity) is rejected as a caller error before any backend call:
`find_aesthetic_images` is not invoked, the validation error is reported,
and the result list is left empty.  A negative finite value passes the UI
check unchanged. -/
theorem c2_nonfinite_threshold_rejected (s : AppState) (parsed : JSNum)
    (outcome : Except String (List AestheticMatch))
    (h : jsIsFinite parsed = false) :
    (scanFolder s parsed outcome).invoked = false ∧
    (scanFolder s parsed outcome).state.scanError =
      some "Enter a valid minimum score before scanning." ∧
    (scanFolder s parsed outcome).state.scanResults = [] := by
  simp [scanFolder, h]

/-- C2 witness: the rejection theorem at the parsed value NaN. -/
theorem c2_witness :
    (scanFolder initAppState JSNum.nan (.ok [])).invoked = false ∧
    (scanFolder initAppState JSNum.nan (.ok [])).state.scanError =
      some "Enter a valid minimum score before scanning." ∧
    (scanFolder initAppState JSNum.nan (.ok [])).state.scanResults = [] :=
  c2_nonfinite_threshold_rejected initAppState JSNum.nan (.ok []) (by decide)

/-- C6: each scan run is independent: the pre-invoke state clears the
previous results and error, and every match in the final state of a run
comes from the current outcome — in particular no match held before the run
can survive into its result list unless the current call returned it. -/
theorem c6_scan_runs_independent (s : AppState) (parsed : JSNum)
    (outcome : Except String (List AestheticMatch)) :
    (scanFolderPre s).scanResults = [] ∧
    (scanFolderPre s).scanError = none ∧
    ∀ m ∈ (scanFolder s parsed outcome).state.scanResults,
      m ∈ outcomeResults outcome := by
  refine ⟨rfl, rfl, ?_⟩
  intro m hm
  by_cases hf : jsIsFinite parsed
  · cases outcome with
    | ok results =>
      simpa [scanFolder, scanFolderPre, hf, outcomeResults] using hm
    | error err =>
      simp [scanFolder, scanFolderPre, hf, outcomeResults] at hm
  · simp [scanFolder, hf] at hm

/-- C6 witness: a run whose call returns one concrete match, starting from a
state still holding a stale match: the returned match is in the fresh
outcome, by the independence theorem applied at that concrete run. -/
theorem c6_witness :
    ({ path := "new.jpg", score := 1 } : AestheticMatch) ∈
      outcomeResults (.ok [{ path := "new.jpg", score := 1 }]) :=
  (c6_scan_runs_independent
    { initAppState with scanResults := [{ path := "old.jpg", score := 1 }] }
    (JSNum.finite 0)
    (.ok [{ path := "new.jpg", score := 1 }])).2.2
    { path := "new.jpg", score := 1 } (by decide)

/-! The Rust backend is not among the sources; the folder walker and the
EXIF duplicate-tag handling are modelled from the spec below. -/

/-- One filesystem entry as the folder walker sees it: its path, whether it
decodes as a genuine supported image (container sniffing, spec section 4.2),
and the score the injected Aesthetic Scorer assigns to it. -/
structure ScanFile where
  path : String
  decodesAsImage : Bool
  score : ℚ
deriving DecidableEq, Repr

/-- Modelled from the spec: the walker's candidate filter, "a fixed
case-insensitive extension allow-list (jpg, jpeg, png, tif, tiff, webp,
heic, heif, avif, bmp)" — the path, lowercased, ends in a dot followed by
one of the listed extensions. -/
def hasAllowedExt (path : String) : Bool :=
  IMAGE_FILTERS.any (fun ext =>
    ("." ++ ext).data.isSuffixOf (path.data.map Char.toLower))

/-- A candidate file that decodes as a genuine supported image — what the
spec's scan properties call an "image" in the directory. -/
def isScannedImage (f : ScanFile) : Bool :=
  hasAllowedExt f.path && f.decodesAsImage

/-- Modelled from the spec: a scanned file enters the result set iff it is a
candidate by extension, decodes as a genuine supported image, and its
aesthetic score is at least `min_score`. -/
def scanIncluded (min_score : ℚ) (f : ScanFile) : Bool :=
  hasAllowedExt f.path && f.decodesAsImage && decide (min_score ≤ f.score)

/-- Modelled from the spec: `find_aesthetic_images` (a Rust command not in
the sources, spec sections 4.5 and 6) — enumerate the directory's files,
keep those passing the candidate/decode/threshold test, and return them as
`AestheticMatch` values carrying path and score. -/
def find_aesthetic_images (dir : List ScanFile) (min_score : ℚ) :
    List AestheticMatch :=
  (dir.filter (scanIncluded min_score)).map
    (fun f => { path := f.path, score := f.score })

/-- The inclusion test is the image test plus the threshold test. -/
theorem scanIncluded_eq (T : ℚ) (f : ScanFile) :
    scanIncluded T f = (isScannedImage f && decide (T ≤ f.score)) := by
  simp [scanIncluded, isScannedImage, Bool.and_assoc]

/-- C3 counterexample: with one genuine image scoring exactly the threshold,
the number of images scoring strictly ABOVE the threshold is 0, yet
`find_aesthetic_images` returns that image (inclusion is `score >= T`), so
the returned count is 1, not the claimed N. -/
theorem c3_counterexample_boundary_score :
    ¬ (∀ (dir : List ScanFile) (T : ℚ),
        (find_aesthetic_images dir T).length =
          (dir.filter (fun f => isScannedImage f && decide (T < f.score))).length) := by
  intro h
  have h1 := h [{ path := "a.jpg", decodesAsImage := true, score := 1 }] 1
  exact absurd h1 (by decide)

/-- C3 (amended): `find_aesthetic_images(dir, T)` returns exactly N matches
where N is the number of images scoring AT OR ABOVE T; every returned match
has `score >= T`; every image with `score >= T` is returned; and every
returned match originates from such an image — i.e. a scanned file is in
the result set iff its aesthetic score is at least `min_score`. -/
theorem c3_returns_exactly_threshold_matches (dir : List ScanFile) (T : ℚ) :
    (find_aesthetic_images dir T).length =
      (dir.filter (fun f => isScannedImage f && decide (T ≤ f.score))).length ∧
    (∀ m ∈ find_aesthetic_images dir T, T ≤ m.score) ∧
    (∀ f ∈ dir, isScannedImage f = true → T ≤ f.score →
      ({ path := f.path, score := f.score } : AestheticMatch) ∈
        find_aesthetic_images dir T) ∧
    (∀ m ∈ find_aesthetic_images dir T, ∃ f ∈ dir,
      isScannedImage f = true ∧ T ≤ f.score ∧
      m.path = f.path ∧ m.score = f.score) := by
  have hpred : ∀ f, scanIncluded T f = (isScannedImage f && decide (T ≤ f.score)) :=
    scanIncluded_eq T
  refine ⟨?_, ?_, ?_, ?_⟩
  · rw [find_aesthetic_images, List.length_map, List.filter_congr (fun f _ => hpred f)]
  · intro m hm
    rcases List.mem_map.mp hm with ⟨f, hf, rfl⟩
    have := List.mem_filter.mp hf
    rw [hpred] at this
    simpa using of_decide_eq_true (Bool.and_elim_right this.2)
  · intro f hf himg hsc
    refine List.mem_map.mpr ⟨f, List.mem_filter.mpr ⟨hf, ?_⟩, rfl⟩
    rw [hpred, himg, decide_eq_true hsc]
    rfl
  · intro m hm
    rcases List.mem_map.mp hm with ⟨f, hf, rfl⟩
    have hmem := List.mem_filter.mp hf
    rw [hpred] at hmem
    exact ⟨f, hmem.1, Bool.and_elim_left hmem.2,
      of_decide_eq_true (Bool.and_elim_right hmem.2), rfl, rfl⟩

/-- C3 witness: a two-file directory with threshold 1: the scoring image at
the threshold is returned. -/
theorem c3_witness :
    ({ path := "a.jpg", score := 1 } : AestheticMatch) ∈
      find_aesthetic_images
        [{ path := "a.jpg", decodesAsImage := true, score := 1 },
         { path := "b.jpg", decodesAsImage := true, score := 0 }] 1 :=
  (c3_returns_exactly_threshold_matches
      [{ path := "a.jpg", decodesAsImage := true, score := 1 },
       { path := "b.jpg", decodesAsImage := true, score := 0 }] 1).2.2.1
    { path := "a.jpg", decodesAsImage := true, score := 1 }
    (by decide) (by decide) (by decide)

/-- C7: threshold monotonicity — for `T1 < T2` every match returned for the
higher threshold `T2` is also returned for the lower threshold `T1`. -/
theorem c7_threshold_monotone (dir : List ScanFile) (T1 T2 : ℚ) (h : T1 < T2) :
    ∀ m ∈ find_aesthetic_images dir T2, m ∈ find_aesthetic_images dir T1 := by
  intro m hm
  rcases List.mem_map.mp hm with ⟨f, hf, rfl⟩
  have hmem := List.mem_filter.mp hf
  rw [scanIncluded_eq] at hmem
  refine List.mem_map.mpr ⟨f, List.mem_filter.mpr ⟨hmem.1, ?_⟩, rfl⟩
  rw [scanIncluded_eq, Bool.and_elim_left hmem.2]
  have h2 : T2 ≤ f.score := of_decide_eq_true (Bool.and_elim_right hmem.2)
  rw [decide_eq_true (le_trans (le_of_lt h) h2)]
  rfl

/-- C7 witness: the match returned at threshold 1 is also returned at
threshold 0 for a concrete two-file directory. -/
theorem c7_witness :
    ({ path := "a.jpg", score := 1 } : AestheticMatch) ∈
      find_aesthetic_images
        [{ path := "a.jpg", decodesAsImage := true, score := 1 },
         { path := "b.jpg", decodesAsImage := true, score := 0 }] 0 :=
  c7_threshold_monotone
    [{ path := "a.jpg", decodesAsImage := true, score := 1 },
     { path := "b.jpg", decodesAsImage := true, score := 0 }] 0 1
    (by norm_num) { path := "a.jpg", score := 1 } (by decide)

/-- The `(ifd, tag)` pair that identifies an `ExifField` row; `App.tsx` line
384 uses it as the React table key. -/
def fieldKey (f : ExifField) : String × String :=
  (f.ifd, f.tag)

/-- Modelled from the spec: duplicate resolution of `read_exif` (backend not
in the sources, spec section 3) — walk the decoded entries in traversal
order and keep an entry only when its `(ifd, tag)` key has not been seen
yet, so "duplicates within a directory are resolved by keeping the first
occurrence". -/
def dedupFields (seen : List (String × String)) :
    List ExifField → List ExifField
  | [] => []
  | f :: rest =>
    if fieldKey f ∈ seen then dedupFields seen rest
    else f :: dedupFields (fieldKey f :: seen) rest

/-- Modelled from the spec: the field list `read_exif` returns, given the
raw entries its IFD traversal produced in order (hostile files may repeat
tag ids there): the first-occurrence deduplication of that raw list. -/
def read_exif_fields (raw : List ExifField) : List ExifField :=
  dedupFields [] raw

/-- An entry surviving deduplication has a key that was not yet seen. -/
theorem mem_dedupFields_not_seen {seen : List (String × String)}
    {l : List ExifField} {f : ExifField}
    (h : f ∈ dedupFields seen l) : fieldKey f ∉ seen := by
  induction l generalizing seen with
  | nil => simp [dedupFields] at h
  | cons g rest ih =>
    by_cases hg : fieldKey g ∈ seen
    · rw [dedupFields, if_pos hg] at h
      exact ih h
    · rw [dedupFields, if_neg hg] at h
      rcases List.mem_cons.mp h with rfl | h'
      · exact hg
      · intro hmem
        exact ih h' (List.mem_cons_of_mem _ hmem)

/-- An entry surviving deduplication is the first entry of the remaining
raw list bearing its key. -/
theorem dedupFields_first_occurrence {seen : List (String × String)}
    {l : List ExifField} {f : ExifField}
    (h : f ∈ dedupFields seen l) :
    l.find? (fun g => decide (fieldKey g = fieldKey f)) = some f := by
  induction l generalizing seen with
  | nil => simp [dedupFields] at h
  | cons g rest ih =>
    by_cases hg : fieldKey g ∈ seen
    · rw [dedupFields, if_pos hg] at h
      have hne : fieldKey g ≠ fieldKey f := by
        intro he
        exact mem_dedupFields_not_seen h (he ▸ hg)
      rw [List.find?_cons, decide_eq_false hne]
      exact ih h
    · rw [dedupFields, if_neg hg] at h
      rcases List.mem_cons.mp h with rfl | h'
      · rw [List.find?_cons, decide_eq_true rfl]
      · have hne : fieldKey g ≠ fieldKey f := by
          intro he
          exact mem_dedupFields_not_seen h' (he ▸ List.mem_cons_self _ _)
        rw [List.find?_cons, decide_eq_false hne]
        exact ih h'

/-- Deduplicated lists carry pairwise distinct keys. -/
theorem dedupFields_pairwise (seen : List (String × String))
    (l : List ExifField) :
    (dedupFields seen l).Pairwise (fun a b => fieldKey a ≠ fieldKey b) := by
  induction l generalizing seen with
  | nil => exact List.Pairwise.nil
  | cons g rest ih =>
    by_cases hg : fieldKey g ∈ seen
    · rw [dedupFields, if_pos hg]
      exact ih _
    · rw [dedupFields, if_neg hg]
      refine List.Pairwise.cons ?_ (ih _)
      intro b hb he
      exact mem_dedupFields_not_seen hb (he ▸ List.mem_cons_self _ _)

/-- Every key occurring in the raw list is represented in the output. -/
theorem dedupFields_keys_complete (seen : List (String × String))
    (l : List ExifField) :
    ∀ g ∈ l, fieldKey g ∈ seen ∨
      ∃ f ∈ dedupFields seen l, fieldKey f = fieldKey g := by
  induction l generalizing seen with
  | nil => intro g hg; simp at hg
  | cons a rest ih =>
    intro g hg
    by_cases ha : fieldKey a ∈ seen
    · rw [dedupFields, if_pos ha]
      rcases List.mem_cons.mp hg with rfl | hg'
      · exact Or.inl ha
      · exact ih seen g hg'
    · rw [dedupFields, if_neg ha]
      rcases List.mem_cons.mp hg with he | hg'
      · exact Or.inr ⟨a, List.mem_cons_self _ _, by rw [he]⟩
      · rcases ih (fieldKey a :: seen) g hg' with hseen | ⟨f, hf, hk⟩
        · rcases List.mem_cons.mp hseen with he | hseen'
          · exact Or.inr ⟨a, List.mem_cons_self _ _, he.symm⟩
          · exact Or.inl hseen'
        · exact Or.inr ⟨f, List.mem_cons_of_mem _ hf, hk⟩

/-- C8: the field list `read_exif` returns has no two entries sharing an
`(ifd, tag)` pair; each returned entry is the FIRST raw entry bearing its
key (later duplicates are dropped); and no key of the raw traversal is
lost. -/
theorem c8_fields_unique_first_occurrence (raw : List ExifField) :
    (read_exif_fields raw).Pairwise (fun a b => fieldKey a ≠ fieldKey b) ∧
    (∀ f ∈ read_exif_fields raw,
      raw.find? (fun g => decide (fieldKey g = fieldKey f)) = some f) ∧
    (∀ g ∈ raw, ∃ f ∈ read_exif_fields raw, fieldKey f = fieldKey g) := by
  refine ⟨dedupFields_pairwise [] raw, ?_, ?_⟩
  · intro f hf
    exact dedupFields_first_occurrence hf
  · intro g hg
    rcases dedupFields_keys_complete [] raw g hg with hseen | hex
    · simp at hseen
    · exact hex

/-- C8 witness: a hostile raw list repeating the key `(IFD0, Make)` with two
different values: the kept entry for that key is the first occurrence. -/
theorem c8_witness :
    [{ tag := "Make", ifd := "IFD0", value := "Canon" },
     { tag := "Make", ifd := "IFD0", value := "EvilCorp" }].find?
      (fun g => decide (fieldKey g =
        fieldKey { tag := "Make", ifd := "IFD0", value := "Canon" })) =
      some { tag := "Make", ifd := "IFD0", value := "Canon" } :=
  (c8_fields_unique_first_occurrence
    [{ tag := "Make", ifd := "IFD0", value := "Canon" },
     { tag := "Make", ifd := "IFD0", value := "EvilCorp" }]).2.1
    { tag := "Make", ifd := "IFD0", value := "Canon" } (by decide)
